import Mathlib

/-!
Verification of the idempotent-payments-api transfer core.

The embedding models the `/transfer` HTTP endpoint of the repository:

* `db/db.go` creates the tables `accounts(id, balance DECIMAL)` and
  `transactions(id, from_id, to_id, amount DECIMAL, idempotency_key UNIQUE, created_at)`.
* `api.TransferHandler` (the handler wired to `POST /transfer` in `main.go`)
  first probes the `transactions` table for the idempotency key and, on a hit,
  answers `200 {"status":"success","message":"Transfer Complete (Recovered)","amount":<recorded>}`.
  Otherwise it opens a SQL transaction, conditionally debits the sender
  (`UPDATE accounts SET balance = balance - $1 WHERE id = $2 AND balance >= $1`),
  answers `422 Insufficient Funds` when zero rows are affected, unconditionally
  credits the receiver, inserts the transaction record (any insert error,
  including a uniqueness violation on `idempotency_key`, yields
  `500 Failed to record transaction`), commits, optionally panics when chaos
  mode is enabled and the `X-Simulate-Chaos` header is set, and finally answers
  `200 {"status":"success","message":"Transfer Complete","amount":<amount>}`.
* `middleware/idempotency.go` defines (but `main.go` does not install) a Redis
  response-cache / distributed-lock middleware.

`DECIMAL(10,2)` is a fixed-point type — an integer count of hundredths — so
balances and amounts are modelled as `Int` (the scale factor is irrelevant to
the properties proved here, which use only `+`, `-` and `≤`).  The database
state is the pair of tables; an SQL `UPDATE` maps over all rows satisfying the
`WHERE` clause, and `RowsAffected` counts them.
-/

/-- A row of the `accounts` table: `id SERIAL PRIMARY KEY, balance DECIMAL(10,2)`. -/
structure Account where
  id : Int
  balance : Int
deriving DecidableEq, Repr

/-- A row of the `transactions` table (the durable idempotency record);
`created_at` and the generated UUID primary key are irrelevant to the claims. -/
structure Txn where
  from_id : Int
  to_id : Int
  amount : Int
  idempotency_key : String
deriving DecidableEq, Repr

/-- The durable store: the two tables created by `db.Initialize`. -/
structure DB where
  accounts : List Account
  transactions : List Txn
deriving DecidableEq, Repr

/-- A transfer request: the JSON body fields of `models.TransferRequest`
together with the `Idempotency-Key` header (empty string = header absent)
and the `X-Simulate-Chaos` header. -/
structure Request where
  from_id : Int
  to_id : Int
  amount : Int
  idempotencyKey : String
  simulateChaos : Bool
deriving DecidableEq, Repr

/-- The HTTP response the handler writes: status code, the `message`
(or `http.Error` text) and, for JSON success bodies, the `amount` field. -/
structure Response where
  status : Nat
  message : String
  amount : Option Int
deriving DecidableEq, Repr

/-- `WHERE id = $2 AND balance >= $1` of the conditional debit. -/
def debitMatches (amount : Int) (fromId : Int) (acc : Account) : Bool :=
  acc.id == fromId && amount ≤ acc.balance

/-- `UPDATE accounts SET balance = balance - $1 WHERE id = $2 AND balance >= $1`. -/
def applyDebit (amount : Int) (fromId : Int) (accs : List Account) : List Account :=
  accs.map fun acc =>
    if debitMatches amount fromId acc then { acc with balance := acc.balance - amount } else acc

/-- `result.RowsAffected()` of the conditional debit. -/
def debitRowsAffected (amount : Int) (fromId : Int) (accs : List Account) : Nat :=
  (accs.filter (debitMatches amount fromId)).length

/-- `UPDATE accounts SET balance = balance + $1 WHERE id = $2` (unconditional credit). -/
def applyCredit (amount : Int) (toId : Int) (accs : List Account) : List Account :=
  accs.map fun acc =>
    if acc.id == toId then { acc with balance := acc.balance + amount } else acc

/-- `SELECT amount FROM transactions WHERE idempotency_key = $1` (first matching row). -/
def findTxn (key : String) (s : DB) : Option Txn :=
  s.transactions.find? fun t => t.idempotency_key == key

/-- Whether a record with this idempotency key already exists; the `UNIQUE`
constraint on `idempotency_key` makes the insert fail exactly in this case. -/
def recordedKey (key : String) (s : DB) : Bool :=
  s.transactions.any fun t => t.idempotency_key == key

/-- The committed effect of the SQL transaction: debit the sender, credit the
receiver, append the transaction record. -/
def commitState (req : Request) (s : DB) : DB :=
  ⟨applyCredit req.amount req.to_id (applyDebit req.amount req.from_id s.accounts),
   s.transactions ++ [⟨req.from_id, req.to_id, req.amount, req.idempotencyKey⟩]⟩

/-- The body of the SQL transaction in `TransferHandler` (steps 1–4 of the
critical section): conditional debit (zero rows affected ⇒ 422), credit,
record insert (uniqueness violation ⇒ 500), commit, and the optional
post-commit chaos panic.  The first component is the response sent to the
client (`none` = the process panicked after commit, before responding); the
second is the durable state after the call (rolled back on every error). -/
def criticalSection (chaosMode : Bool) (req : Request) (s : DB) : Option Response × DB :=
  if debitRowsAffected req.amount req.from_id s.accounts = 0 then
    (some ⟨422, "Insufficient Funds", none⟩, s)
  else if recordedKey req.idempotencyKey s then
    (some ⟨500, "Failed to record transaction", none⟩, s)
  else if chaosMode && req.simulateChaos then
    (none, commitState req s)
  else
    (some ⟨200, "Transfer Complete", some req.amount⟩, commitState req s)

/-- `api.TransferHandler`: key check, recovery probe of the durable record,
then the transactional critical section. -/
def transferHandler (chaosMode : Bool) (req : Request) (s : DB) : Option Response × DB :=
  if req.idempotencyKey == "" then
    (some ⟨400, "Missing Idempotency-Key header", none⟩, s)
  else
    match findTxn req.idempotencyKey s with
    | some t => (some ⟨200, "Transfer Complete (Recovered)", some t.amount⟩, s)
    | none => criticalSection chaosMode req s

/-- Sequential composition of transfer calls against the same database. -/
def runCalls (chaosMode : Bool) : List Request → DB → DB
  | [], s => s
  | r :: rs, s => runCalls chaosMode rs (transferHandler chaosMode r s).2

/-- How many calls of the sequence changed the `transactions` table, i.e.
committed the ledger mutation (a call commits exactly when it appends its
record). -/
def countMutations (chaosMode : Bool) : List Request → DB → Nat
  | [], _ => 0
  | r :: rs, s =>
    let s' := (transferHandler chaosMode r s).2
    (if s'.transactions = s.transactions then 0 else 1) + countMutations chaosMode rs s'

/-- `balance` of the unique `accounts` row with this id (`none` when absent). -/
def lookupBalance (i : Int) (s : DB) : Option Int :=
  (s.accounts.find? fun acc => acc.id == i).map Account.balance

/-- Sum of all account balances. -/
def totalBalance (s : DB) : Int :=
  (s.accounts.map Account.balance).sum

/-! ### List-level lemmas about the SQL primitives -/

theorem applyDebit_cons (a f : Int) (x : Account) (xs : List Account) :
    applyDebit a f (x :: xs) =
      (if debitMatches a f x then { x with balance := x.balance - a } else x) ::
        applyDebit a f xs := rfl

theorem applyCredit_cons (a t : Int) (x : Account) (xs : List Account) :
    applyCredit a t (x :: xs) =
      (if x.id == t then { x with balance := x.balance + a } else x) ::
        applyCredit a t xs := rfl

theorem applyDebit_map_id (a f : Int) (l : List Account) :
    (applyDebit a f l).map Account.id = l.map Account.id := by
  induction l with
  | nil => rfl
  | cons x xs ih =>
    rw [applyDebit_cons, List.map_cons, List.map_cons, ih]
    by_cases hx : debitMatches a f x
    · rw [if_pos hx]
    · rw [if_neg hx]

theorem applyCredit_map_id (a t : Int) (l : List Account) :
    (applyCredit a t l).map Account.id = l.map Account.id := by
  induction l with
  | nil => rfl
  | cons x xs ih =>
    rw [applyCredit_cons, List.map_cons, List.map_cons, ih]
    by_cases hx : (x.id == t) = true
    · rw [if_pos hx]
    · rw [if_neg hx]

theorem id_unique_of_nodup {l : List Account} (hnd : (l.map Account.id).Nodup)
    {x y : Account} (hx : x ∈ l) (hy : y ∈ l) (hid : x.id = y.id) : x = y := by
  induction l with
  | nil => cases hx
  | cons z zs ih =>
    simp only [List.map_cons, List.nodup_cons] at hnd
    rcases List.mem_cons.1 hx with rfl | hx' <;>
      rcases List.mem_cons.1 hy with rfl | hy'
    · rfl
    · exact absurd (hid ▸ List.mem_map_of_mem Account.id hy') hnd.1
    · exact absurd (hid ▸ List.mem_map_of_mem Account.id hx') hnd.1
    · exact ih hnd.2 hx' hy'

theorem find?_applyDebit_ne (a : Int) {f i : Int} (hne : f ≠ i) (l : List Account) :
    (applyDebit a f l).find? (fun acc => acc.id == i) = l.find? (fun acc => acc.id == i) := by
  induction l with
  | nil => rfl
  | cons x xs ih =>
    rw [applyDebit_cons]
    by_cases hx : debitMatches a f x
    · have hxf : x.id = f := by
        have h1 := hx
        simp only [debitMatches, Bool.and_eq_true, beq_iff_eq] at h1
        exact h1.1
      have h2 : (x.id == i) = false := by simp [hxf, hne]
      rw [if_pos hx, List.find?_cons, List.find?_cons]
      rw [h2]
      exact ih
    · rw [if_neg hx, List.find?_cons, List.find?_cons]
      by_cases hxi : (x.id == i) = true
      · rw [hxi]
      · rw [Bool.not_eq_true] at hxi
        rw [hxi]
        exact ih

theorem find?_applyDebit_eq (a : Int) (f : Int) {l : List Account} {acc : Account}
    (hfind : l.find? (fun x => x.id == f) = some acc) (hle : a ≤ acc.balance) :
    (applyDebit a f l).find? (fun x => x.id == f) = some ⟨acc.id, acc.balance - a⟩ := by
  induction l with
  | nil => simp at hfind
  | cons x xs ih =>
    rw [List.find?_cons] at hfind
    rw [applyDebit_cons]
    by_cases hx : (x.id == f) = true
    · rw [hx] at hfind
      have hax : x = acc := by simpa using hfind
      subst hax
      have hm : debitMatches a f x = true := by
        simp only [debitMatches, hx, Bool.true_and, decide_eq_true_eq]
        exact hle
      rw [if_pos hm, List.find?_cons, hx]
    · rw [Bool.not_eq_true] at hx
      rw [hx] at hfind
      have hm : debitMatches a f x = false := by
        simp only [debitMatches, hx, Bool.false_and]
      rw [if_neg (by simp [hm]), List.find?_cons, hx]
      exact ih hfind

theorem find?_applyCredit_ne (a : Int) {t i : Int} (hne : t ≠ i) (l : List Account) :
    (applyCredit a t l).find? (fun acc => acc.id == i) = l.find? (fun acc => acc.id == i) := by
  induction l with
  | nil => rfl
  | cons x xs ih =>
    rw [applyCredit_cons]
    by_cases hx : (x.id == t) = true
    · have hxt : x.id = t := by simpa using hx
      have h2 : (x.id == i) = false := by simp [hxt, hne]
      rw [if_pos hx, List.find?_cons, List.find?_cons, h2]
      exact ih
    · rw [Bool.not_eq_true] at hx
      rw [if_neg (by simp [hx]), List.find?_cons, List.find?_cons]
      by_cases hxi : (x.id == i) = true
      · rw [hxi]
      · rw [Bool.not_eq_true] at hxi
        rw [hxi]
        exact ih

theorem find?_applyCredit_eq (a : Int) (t : Int) {l : List Account} {acc : Account}
    (hfind : l.find? (fun x => x.id == t) = some acc) :
    (applyCredit a t l).find? (fun x => x.id == t) = some ⟨acc.id, acc.balance + a⟩ := by
  induction l with
  | nil => simp at hfind
  | cons x xs ih =>
    rw [List.find?_cons] at hfind
    rw [applyCredit_cons]
    by_cases hx : (x.id == t) = true
    · rw [hx] at hfind
      have hax : x = acc := by simpa using hfind
      subst hax
      rw [if_pos hx, List.find?_cons, hx]
    · rw [Bool.not_eq_true] at hx
      rw [hx] at hfind
      rw [if_neg (by simp [hx]), List.find?_cons, hx]
      exact ih hfind

theorem sum_applyDebit (a f : Int) (l : List Account) :
    ((applyDebit a f l).map Account.balance).sum =
      (l.map Account.balance).sum - a * (l.countP (debitMatches a f) : Int) := by
  induction l with
  | nil => simp [applyDebit]
  | cons x xs ih =>
    by_cases hx : debitMatches a f x
    · rw [applyDebit_cons, if_pos hx, List.map_cons, List.map_cons, List.sum_cons,
        List.sum_cons, List.countP_cons_of_pos _ xs hx, ih]
      dsimp only
      push_cast
      ring
    · rw [applyDebit_cons, if_neg hx, List.map_cons, List.map_cons, List.sum_cons,
        List.sum_cons, List.countP_cons_of_neg _ xs hx, ih]
      ring

theorem sum_applyCredit (a t : Int) (l : List Account) :
    ((applyCredit a t l).map Account.balance).sum =
      (l.map Account.balance).sum + a * (l.countP (fun acc => acc.id == t) : Int) := by
  induction l with
  | nil => simp [applyCredit]
  | cons x xs ih =>
    by_cases hx : (x.id == t) = true
    · rw [applyCredit_cons, if_pos hx, List.map_cons, List.map_cons, List.sum_cons,
        List.sum_cons, List.countP_cons_of_pos _ xs hx, ih]
      dsimp only
      push_cast
      ring
    · rw [applyCredit_cons, if_neg hx, List.map_cons, List.map_cons, List.sum_cons,
        List.sum_cons, List.countP_cons_of_neg _ xs hx, ih]
      ring

theorem countP_eq_one_of_nodup {l : List Account} {p : Account → Bool} {f : Int} {acc : Account}
    (hnd : (l.map Account.id).Nodup)
    (hfind : l.find? (fun x => x.id == f) = some acc)
    (hacc : p acc = true) (himp : ∀ x, p x = true → x.id = f) :
    l.countP p = 1 := by
  induction l with
  | nil => simp at hfind
  | cons x xs ih =>
    simp only [List.map_cons, List.nodup_cons] at hnd
    rw [List.find?_cons] at hfind
    by_cases hx : (x.id == f) = true
    · rw [hx] at hfind
      have hax : x = acc := by simpa using hfind
      subst hax
      have hrest : xs.countP p = 0 := by
        rw [List.countP_eq_zero]
        intro y hy hpy
        have hyf : y.id = f := himp y hpy
        have hxf : x.id = f := by simpa using hx
        refine hnd.1 ?_
        rw [hxf, ← hyf]
        exact List.mem_map_of_mem Account.id hy
      rw [List.countP_cons_of_pos _ xs hacc, hrest]
    · rw [Bool.not_eq_true] at hx
      rw [hx] at hfind
      have hpx : p x = false := by
        rcases hp : p x with _ | _
        · rfl
        · exfalso
          have hxf := himp x hp
          rw [hxf] at hx
          simp at hx
      rw [List.countP_cons_of_neg _ xs (by simp [hpx]), ih hnd.2 hfind]

theorem debitRowsAffected_eq_countP (a f : Int) (l : List Account) :
    debitRowsAffected a f l = l.countP (debitMatches a f) := by
  simp [debitRowsAffected, List.countP_eq_length_filter]

/-! ### Handler-level lemmas -/

theorem findTxn_eq_none_iff (k : String) (s : DB) :
    findTxn k s = none ↔ recordedKey k s = false := by
  simp [findTxn, recordedKey, List.find?_eq_none, List.any_eq_false]

theorem findTxn_isSome_of_recorded {k : String} {s : DB} (h : recordedKey k s = true) :
    ∃ t, findTxn k s = some t := by
  rcases hft : findTxn k s with _ | t
  · rw [findTxn_eq_none_iff] at hft
    rw [hft] at h
    cases h
  · exact ⟨t, rfl⟩

theorem transferHandler_state_of_recorded (c : Bool) {req : Request} {s : DB}
    (h : recordedKey req.idempotencyKey s = true) :
    (transferHandler c req s).2 = s := by
  by_cases hkey : (req.idempotencyKey == "") = true
  · simp [transferHandler, hkey]
  · obtain ⟨t, ht⟩ := findTxn_isSome_of_recorded h
    simp [transferHandler, hkey, ht]

theorem transferHandler_fresh (c : Bool) {req : Request} {s : DB}
    (hkey : ¬(req.idempotencyKey == "") = true)
    (hrec : recordedKey req.idempotencyKey s = false) :
    transferHandler c req s = criticalSection c req s := by
  have hft : findTxn req.idempotencyKey s = none := (findTxn_eq_none_iff _ _).mpr hrec
  simp [transferHandler, hkey, hft]

theorem criticalSection_commit (c : Bool) (req : Request) (s : DB)
    (haff : ¬ debitRowsAffected req.amount req.from_id s.accounts = 0)
    (hrec : recordedKey req.idempotencyKey s = false)
    (hch : (c && req.simulateChaos) = false) :
    criticalSection c req s =
      (some ⟨200, "Transfer Complete", some req.amount⟩, commitState req s) := by
  unfold criticalSection
  rw [if_neg haff, if_neg (by simp [hrec]), if_neg (by simp [hch])]

theorem transferHandler_transactions (c : Bool) (req : Request) (s : DB) :
    (transferHandler c req s).2.transactions = s.transactions ∨
      ((transferHandler c req s).2.transactions =
          s.transactions ++ [⟨req.from_id, req.to_id, req.amount, req.idempotencyKey⟩] ∧
        recordedKey req.idempotencyKey s = false) := by
  by_cases hkey : (req.idempotencyKey == "") = true
  · left
    simp [transferHandler, hkey]
  · rcases hft : findTxn req.idempotencyKey s with _ | t
    · have hrec : recordedKey req.idempotencyKey s = false := (findTxn_eq_none_iff _ _).mp hft
      rw [transferHandler_fresh c hkey hrec]
      unfold criticalSection
      by_cases haff : debitRowsAffected req.amount req.from_id s.accounts = 0
      · left
        rw [if_pos haff]
      · rw [if_neg haff, if_neg (by simp [hrec])]
        by_cases hch : (c && req.simulateChaos) = true
        · right
          rw [if_pos hch]
          exact ⟨rfl, hrec⟩
        · right
          rw [if_neg hch]
          exact ⟨rfl, hrec⟩
    · left
      simp [transferHandler, hkey, hft]

theorem countMutations_cons (c : Bool) (r : Request) (rs : List Request) (s : DB) :
    countMutations c (r :: rs) s =
      (if (transferHandler c r s).2.transactions = s.transactions then 0 else 1) +
        countMutations c rs (transferHandler c r s).2 := rfl

theorem countMutations_eq_zero (c : Bool) (k : String) (reqs : List Request) (s : DB)
    (hk : ∀ r ∈ reqs, r.idempotencyKey = k) (hrec : recordedKey k s = true) :
    countMutations c reqs s = 0 := by
  induction reqs generalizing s with
  | nil => rfl
  | cons r rs ih =>
    have hrk : r.idempotencyKey = k := hk r (List.mem_cons_self r rs)
    have hs2 : (transferHandler c r s).2 = s :=
      transferHandler_state_of_recorded c (by rw [hrk]; exact hrec)
    rw [countMutations_cons, hs2, if_pos rfl]
    simpa using ih s (fun x hx => hk x (List.mem_cons_of_mem r hx)) hrec

theorem countMutations_le_one (c : Bool) (k : String) (reqs : List Request) (s : DB)
    (hk : ∀ r ∈ reqs, r.idempotencyKey = k) :
    countMutations c reqs s ≤ 1 := by
  induction reqs generalizing s with
  | nil => simp [countMutations]
  | cons r rs ih =>
    have hrk : r.idempotencyKey = k := hk r (List.mem_cons_self r rs)
    have htail : ∀ x ∈ rs, x.idempotencyKey = k := fun x hx => hk x (List.mem_cons_of_mem r hx)
    rw [countMutations_cons]
    by_cases hmut : (transferHandler c r s).2.transactions = s.transactions
    · rw [if_pos hmut]
      simpa using ih (transferHandler c r s).2 htail
    · rw [if_neg hmut]
      rcases transferHandler_transactions c r s with h | ⟨happ, _⟩
      · exact absurd h hmut
      · have hrec2 : recordedKey k (transferHandler c r s).2 = true := by
          simp [recordedKey, happ, hrk]
        rw [countMutations_eq_zero c k rs _ htail hrec2]

theorem find?_append_none {α : Type} (p : α → Bool) {l1 : List α} (l2 : List α)
    (h : l1.find? p = none) : (l1 ++ l2).find? p = l2.find? p := by
  induction l1 with
  | nil => rfl
  | cons x xs ih =>
    rw [List.find?_cons] at h
    rcases hx : p x with _ | _
    · rw [hx] at h
      rw [List.cons_append, List.find?_cons, hx]
      exact ih h
    · rw [hx] at h
      cases h

/-- On a crash (`none` response), the call had a non-empty fresh key, passed
the funds check, and committed; the resulting state is `commitState`. -/
theorem transferHandler_crash_inv (c : Bool) (req : Request) (s : DB)
    (hcrash : (transferHandler c req s).1 = none) :
    (req.idempotencyKey == "") = false ∧
    recordedKey req.idempotencyKey s = false ∧
    (transferHandler c req s).2 = commitState req s := by
  by_cases hkey : (req.idempotencyKey == "") = true
  · exfalso
    simp [transferHandler, hkey] at hcrash
  · rcases hft : findTxn req.idempotencyKey s with _ | t
    · have hrec : recordedKey req.idempotencyKey s = false := (findTxn_eq_none_iff _ _).mp hft
      rw [transferHandler_fresh c hkey hrec] at hcrash ⊢
      unfold criticalSection at hcrash ⊢
      by_cases haff : debitRowsAffected req.amount req.from_id s.accounts = 0
      · exfalso
        rw [if_pos haff] at hcrash
        cases hcrash
      · rw [if_neg haff, if_neg (by simp [hrec])] at hcrash ⊢
        by_cases hch : (c && req.simulateChaos) = true
        · rw [if_pos hch]
          exact ⟨by simpa using hkey, hrec, rfl⟩
        · exfalso
          rw [if_neg hch] at hcrash
          cases hcrash
    · exfalso
      simp [transferHandler, hkey, hft] at hcrash

/-- After a commit of the record for `req`, the durable probe finds it (with
the committed amount) provided the key was fresh before the commit. -/
theorem findTxn_commitState (req : Request) (s : DB)
    (hrec : recordedKey req.idempotencyKey s = false) :
    findTxn req.idempotencyKey (commitState req s) =
      some ⟨req.from_id, req.to_id, req.amount, req.idempotencyKey⟩ := by
  unfold findTxn commitState
  rw [find?_append_none _ _ ((findTxn_eq_none_iff _ _).mpr hrec), List.find?_cons]
  simp

/-- C1: for a fixed idempotency key, across any number of sequential calls to
the transfer operation with that key, the ledger mutation commits at most
once; and once a transaction record for the key exists, any call with the key
leaves the entire database state (all account balances and the transactions
table) unchanged. -/
theorem C1_ledger_mutation_at_most_once_per_key (c : Bool) (k : String)
    (reqs : List Request) (r : Request) (s : DB)
    (hk : ∀ x ∈ reqs, x.idempotencyKey = k) (hr : r.idempotencyKey = k) :
    countMutations c reqs s ≤ 1 ∧
      (recordedKey k s = true → (transferHandler c r s).2 = s) := by
  refine ⟨countMutations_le_one c k reqs s hk, fun hrec => ?_⟩
  exact transferHandler_state_of_recorded c (by rw [hr]; exact hrec)

theorem C1_witness :
    (∀ x ∈ [(⟨1, 2, 10, "k", false⟩ : Request), ⟨1, 2, 10, "k", false⟩, ⟨3, 4, 7, "k", false⟩],
        x.idempotencyKey = "k") ∧
      (⟨5, 6, 2, "k", false⟩ : Request).idempotencyKey = "k" ∧
      (countMutations false [⟨1, 2, 10, "k", false⟩, ⟨1, 2, 10, "k", false⟩,
          ⟨3, 4, 7, "k", false⟩] ⟨[⟨1, 100⟩, ⟨2, 5⟩], []⟩ ≤ 1 ∧
        (recordedKey "k" ⟨[⟨1, 100⟩, ⟨2, 5⟩], []⟩ = true →
          (transferHandler false ⟨5, 6, 2, "k", false⟩ ⟨[⟨1, 100⟩, ⟨2, 5⟩], []⟩).2 =
            ⟨[⟨1, 100⟩, ⟨2, 5⟩], []⟩)) :=
  ⟨by decide, by decide,
    C1_ledger_mutation_at_most_once_per_key false "k"
      [⟨1, 2, 10, "k", false⟩, ⟨1, 2, 10, "k", false⟩, ⟨3, 4, 7, "k", false⟩]
      ⟨5, 6, 2, "k", false⟩ ⟨[⟨1, 100⟩, ⟨2, 5⟩], []⟩ (by decide) (by decide)⟩

/-- C2: if the ledger mutation commits and the process then terminates before
responding (chaos-mode post-commit panic), every subsequent call with the same
key returns status 200 with message "Transfer Complete (Recovered)" and the
originally committed amount, and changes no account balance (the state is
untouched). -/
theorem C2_crash_recovery (c : Bool) (req req2 : Request) (s : DB)
    (hcrash : (transferHandler true req s).1 = none)
    (hk : req2.idempotencyKey = req.idempotencyKey) :
    transferHandler c req2 (transferHandler true req s).2 =
      (some ⟨200, "Transfer Complete (Recovered)", some req.amount⟩,
        (transferHandler true req s).2) := by
  obtain ⟨hkey, hrec, hcommit⟩ := transferHandler_crash_inv true req s hcrash
  rw [hcommit]
  have hkey2 : (req2.idempotencyKey == "") = false := by
    rw [hk]
    exact hkey
  have hft2 : findTxn req2.idempotencyKey (commitState req s) =
      some ⟨req.from_id, req.to_id, req.amount, req.idempotencyKey⟩ := by
    rw [hk]
    exact findTxn_commitState req s hrec
  simp [transferHandler, hkey2, hft2]

theorem C2_witness :
    (transferHandler true ⟨1, 2, 10, "k", true⟩ ⟨[⟨1, 100⟩, ⟨2, 5⟩], []⟩).1 = none ∧
      (⟨9, 9, 99, "k", false⟩ : Request).idempotencyKey =
        (⟨1, 2, 10, "k", true⟩ : Request).idempotencyKey ∧
      transferHandler false ⟨9, 9, 99, "k", false⟩
          (transferHandler true ⟨1, 2, 10, "k", true⟩ ⟨[⟨1, 100⟩, ⟨2, 5⟩], []⟩).2 =
        (some ⟨200, "Transfer Complete (Recovered)", some 10⟩,
          (transferHandler true ⟨1, 2, 10, "k", true⟩ ⟨[⟨1, 100⟩, ⟨2, 5⟩], []⟩).2) :=
  ⟨by decide, by decide,
    C2_crash_recovery false ⟨1, 2, 10, "k", true⟩ ⟨9, 9, 99, "k", false⟩
      ⟨[⟨1, 100⟩, ⟨2, 5⟩], []⟩ (by decide) (by decide)⟩

/-- A first-success response ("Transfer Complete") can only come out of the
commit branch: key non-empty, no prior record, funds check passed, and the
resulting state is the committed one. -/
theorem transferHandler_success_inv (c : Bool) (req : Request) (s : DB)
    (h : (transferHandler c req s).1 = some ⟨200, "Transfer Complete", some req.amount⟩) :
    ¬ debitRowsAffected req.amount req.from_id s.accounts = 0 ∧
    recordedKey req.idempotencyKey s = false ∧
    (transferHandler c req s).2 = commitState req s := by
  by_cases hkey : (req.idempotencyKey == "") = true
  · exfalso
    simp [transferHandler, hkey] at h
  · rcases hft : findTxn req.idempotencyKey s with _ | t
    · have hrec : recordedKey req.idempotencyKey s = false := (findTxn_eq_none_iff _ _).mp hft
      rw [transferHandler_fresh c hkey hrec] at h ⊢
      unfold criticalSection at h ⊢
      by_cases haff : debitRowsAffected req.amount req.from_id s.accounts = 0
      · exfalso
        rw [if_pos haff] at h
        simp at h
      · rw [if_neg haff, if_neg (by simp [hrec])] at h ⊢
        by_cases hch : (c && req.simulateChaos) = true
        · exfalso
          rw [if_pos hch] at h
          cases h
        · rw [if_neg hch]
          exact ⟨haff, hrec, rfl⟩
    · exfalso
      simp only [transferHandler, hkey, if_neg, Bool.not_eq_true, hft] at h
      have hmsg := congrArg (fun o => Option.map Response.message o) h
      simp at hmsg

/-- The funds check passing means the (unique) sender row had balance ≥ amount. -/
theorem le_balance_of_affected {a f : Int} {l : List Account} {acc : Account}
    (hnd : (l.map Account.id).Nodup)
    (hf : l.find? (fun x => x.id == f) = some acc)
    (haff : ¬ debitRowsAffected a f l = 0) : a ≤ acc.balance := by
  rw [debitRowsAffected_eq_countP] at haff
  have hpos : 0 < l.countP (debitMatches a f) := Nat.pos_of_ne_zero haff
  rw [List.countP_pos_iff] at hpos
  obtain ⟨x, hx, hpx⟩ := hpos
  have hxid : x.id = f := by
    have h1 := hpx
    simp only [debitMatches, Bool.and_eq_true, beq_iff_eq] at h1
    exact h1.1
  have hxbal : a ≤ x.balance := by
    simp only [debitMatches, Bool.and_eq_true, decide_eq_true_eq] at hpx
    exact hpx.2
  have haccid : acc.id = f := by simpa using List.find?_some hf
  have hxacc : x = acc :=
    id_unique_of_nodup hnd hx (List.mem_of_find?_eq_some hf) (by rw [hxid, haccid])
  rwa [hxacc] at hxbal

/-- Conversely, an existing sender row with balance ≥ amount makes the
conditional debit hit it. -/
theorem affected_ne_zero_of_le {a f : Int} {l : List Account} {acc : Account}
    (hf : l.find? (fun x => x.id == f) = some acc)
    (hge : a ≤ acc.balance) : ¬ debitRowsAffected a f l = 0 := by
  rw [debitRowsAffected_eq_countP]
  intro h0
  rw [List.countP_eq_zero] at h0
  have haccid := List.find?_some hf
  refine h0 acc (List.mem_of_find?_eq_some hf) ?_
  simp only [debitMatches, Bool.and_eq_true, decide_eq_true_eq]
  exact ⟨haccid, hge⟩

theorem totalBalance_commitState (req : Request) (s : DB) {accX accY : Account}
    (hnd : (s.accounts.map Account.id).Nodup)
    (hfx : s.accounts.find? (fun x => x.id == req.from_id) = some accX)
    (hge : req.amount ≤ accX.balance)
    (hne : req.from_id ≠ req.to_id)
    (hfy : s.accounts.find? (fun x => x.id == req.to_id) = some accY) :
    totalBalance (commitState req s) = totalBalance s := by
  have hcount1 : s.accounts.countP (debitMatches req.amount req.from_id) = 1 := by
    have haccid := List.find?_some hfx
    refine countP_eq_one_of_nodup hnd hfx ?_ ?_
    · simp only [debitMatches, Bool.and_eq_true, decide_eq_true_eq]
      exact ⟨haccid, hge⟩
    · intro x hp
      simp only [debitMatches, Bool.and_eq_true, beq_iff_eq] at hp
      exact hp.1
  have hnd2 : ((applyDebit req.amount req.from_id s.accounts).map Account.id).Nodup := by
    rw [applyDebit_map_id]
    exact hnd
  have hfy2 : (applyDebit req.amount req.from_id s.accounts).find?
      (fun x => x.id == req.to_id) = some accY := by
    rw [find?_applyDebit_ne req.amount hne]
    exact hfy
  have hcount2 : (applyDebit req.amount req.from_id s.accounts).countP
      (fun x => x.id == req.to_id) = 1 := by
    have haccid2 := List.find?_some hfy2
    refine countP_eq_one_of_nodup hnd2 hfy2 haccid2 ?_
    intro x hp
    simpa using hp
  unfold totalBalance commitState
  rw [sum_applyCredit, hcount2, sum_applyDebit, hcount1]
  push_cast
  ring

/-- C3 counterexample: a transfer whose receiver id matches no `accounts` row
still returns the first-success outcome, and the total of all balances drops
by the amount (100 → 90), contradicting "the sum of all account balances is
unchanged by the call". -/
theorem C3_counterexample :
    (transferHandler false ⟨1, 2, 10, "k", false⟩ ⟨[⟨1, 100⟩], []⟩).1 =
        some ⟨200, "Transfer Complete", some 10⟩ ∧
      totalBalance ⟨[⟨1, 100⟩], []⟩ = 100 ∧
      totalBalance (transferHandler false ⟨1, 2, 10, "k", false⟩ ⟨[⟨1, 100⟩], []⟩).2 = 90 := by
  decide

/-- C3 (amended): for a first-success transfer between two distinct ids that
both match an `accounts` row, the sender's balance decreases by exactly the
amount, the receiver's increases by exactly the amount, and the total balance
is unchanged. -/
theorem C3_conservation (c : Bool) (req : Request) (s : DB) (bX bY : Int)
    (hnd : (s.accounts.map Account.id).Nodup)
    (hne : req.from_id ≠ req.to_id)
    (hX : lookupBalance req.from_id s = some bX)
    (hY : lookupBalance req.to_id s = some bY)
    (hsucc : (transferHandler c req s).1 = some ⟨200, "Transfer Complete", some req.amount⟩) :
    lookupBalance req.from_id (transferHandler c req s).2 = some (bX - req.amount) ∧
    lookupBalance req.to_id (transferHandler c req s).2 = some (bY + req.amount) ∧
    totalBalance (transferHandler c req s).2 = totalBalance s := by
  obtain ⟨haff, hrec, hstate⟩ := transferHandler_success_inv c req s hsucc
  rcases hfx : s.accounts.find? (fun x => x.id == req.from_id) with _ | accX
  · rw [lookupBalance, hfx] at hX
    cases hX
  · rcases hfy : s.accounts.find? (fun x => x.id == req.to_id) with _ | accY
    · rw [lookupBalance, hfy] at hY
      cases hY
    · rw [lookupBalance, hfx] at hX
      rw [lookupBalance, hfy] at hY
      have hbX : accX.balance = bX := by simpa using hX
      have hbY : accY.balance = bY := by simpa using hY
      have hge : req.amount ≤ accX.balance := le_balance_of_affected hnd hfx haff
      rw [hstate]
      refine ⟨?_, ?_, totalBalance_commitState req s hnd hfx hge hne hfy⟩
      · unfold lookupBalance commitState
        dsimp only
        rw [find?_applyCredit_ne req.amount (Ne.symm hne),
          find?_applyDebit_eq req.amount req.from_id hfx hge]
        simp [hbX]
      · have hfy2 : (applyDebit req.amount req.from_id s.accounts).find?
            (fun x => x.id == req.to_id) = some accY := by
          rw [find?_applyDebit_ne req.amount hne]
          exact hfy
        unfold lookupBalance commitState
        dsimp only
        rw [find?_applyCredit_eq req.amount req.to_id hfy2]
        simp [hbY]

theorem C3_witness :
    (((⟨[⟨1, 100⟩, ⟨2, 5⟩], []⟩ : DB).accounts.map Account.id).Nodup ∧
      (⟨1, 2, 10, "k", false⟩ : Request).from_id ≠ (⟨1, 2, 10, "k", false⟩ : Request).to_id ∧
      lookupBalance 1 ⟨[⟨1, 100⟩, ⟨2, 5⟩], []⟩ = some 100 ∧
      lookupBalance 2 ⟨[⟨1, 100⟩, ⟨2, 5⟩], []⟩ = some 5 ∧
      (transferHandler false ⟨1, 2, 10, "k", false⟩ ⟨[⟨1, 100⟩, ⟨2, 5⟩], []⟩).1 =
        some ⟨200, "Transfer Complete", some 10⟩) ∧
    (lookupBalance 1 (transferHandler false ⟨1, 2, 10, "k", false⟩
        ⟨[⟨1, 100⟩, ⟨2, 5⟩], []⟩).2 = some (100 - 10) ∧
      lookupBalance 2 (transferHandler false ⟨1, 2, 10, "k", false⟩
        ⟨[⟨1, 100⟩, ⟨2, 5⟩], []⟩).2 = some (5 + 10) ∧
      totalBalance (transferHandler false ⟨1, 2, 10, "k", false⟩
        ⟨[⟨1, 100⟩, ⟨2, 5⟩], []⟩).2 = totalBalance ⟨[⟨1, 100⟩, ⟨2, 5⟩], []⟩) :=
  ⟨⟨by decide, by decide, by decide, by decide, by decide⟩,
    C3_conservation false ⟨1, 2, 10, "k", false⟩ ⟨[⟨1, 100⟩, ⟨2, 5⟩], []⟩ 100 5
      (by decide) (by decide) (by decide) (by decide) (by decide)⟩

/-- Zero rows affected when the unique sender row is underfunded. -/
theorem affected_eq_zero_of_lt {a f : Int} {l : List Account} {acc : Account}
    (hnd : (l.map Account.id).Nodup)
    (hf : l.find? (fun x => x.id == f) = some acc)
    (hlt : acc.balance < a) : debitRowsAffected a f l = 0 := by
  rw [debitRowsAffected_eq_countP, List.countP_eq_zero]
  intro x hx hpx
  have hxid : x.id = f := by
    have h1 := hpx
    simp only [debitMatches, Bool.and_eq_true, beq_iff_eq] at h1
    exact h1.1
  have hxbal : a ≤ x.balance := by
    simp only [debitMatches, Bool.and_eq_true, decide_eq_true_eq] at hpx
    exact hpx.2
  have haccid : acc.id = f := by simpa using List.find?_some hf
  have hxacc : x = acc :=
    id_unique_of_nodup hnd hx (List.mem_of_find?_eq_some hf) (by rw [hxid, haccid])
  rw [hxacc] at hxbal
  omega

/-- Zero rows affected when no row has the sender's id. -/
theorem affected_eq_zero_of_absent {a f : Int} {l : List Account}
    (hf : l.find? (fun x => x.id == f) = none) : debitRowsAffected a f l = 0 := by
  rw [debitRowsAffected_eq_countP, List.countP_eq_zero]
  intro x hx hpx
  rw [List.find?_eq_none] at hf
  have hxid : (x.id == f) = true := by
    simp only [debitMatches, Bool.and_eq_true] at hpx
    exact hpx.1
  exact absurd hxid (by simpa using hf x hx)

theorem transferHandler_accounts (c : Bool) (req : Request) (s : DB) :
    (transferHandler c req s).2.accounts = s.accounts ∨
      (transferHandler c req s).2.accounts =
        applyCredit req.amount req.to_id (applyDebit req.amount req.from_id s.accounts) := by
  by_cases hkey : (req.idempotencyKey == "") = true
  · left
    simp [transferHandler, hkey]
  · rcases hft : findTxn req.idempotencyKey s with _ | t
    · have hrec : recordedKey req.idempotencyKey s = false := (findTxn_eq_none_iff _ _).mp hft
      rw [transferHandler_fresh c hkey hrec]
      unfold criticalSection
      by_cases haff : debitRowsAffected req.amount req.from_id s.accounts = 0
      · left
        rw [if_pos haff]
      · rw [if_neg haff, if_neg (by simp [hrec])]
        by_cases hch : (c && req.simulateChaos) = true
        · right
          rw [if_pos hch]
          rfl
        · right
          rw [if_neg hch]
          rfl
    · left
      simp [transferHandler, hkey, hft]

theorem applyDebit_nonneg (a f : Int) {l : List Account}
    (h : ∀ x ∈ l, 0 ≤ x.balance) : ∀ x ∈ applyDebit a f l, 0 ≤ x.balance := by
  intro x hx
  rw [applyDebit, List.mem_map] at hx
  obtain ⟨y, hy, rfl⟩ := hx
  by_cases hm : debitMatches a f y
  · rw [if_pos hm]
    have hyle : a ≤ y.balance := by
      simp only [debitMatches, Bool.and_eq_true, decide_eq_true_eq] at hm
      exact hm.2
    dsimp only
    omega
  · rw [if_neg hm]
    exact h y hy

theorem applyCredit_nonneg (a t : Int) (ha : 0 ≤ a) {l : List Account}
    (h : ∀ x ∈ l, 0 ≤ x.balance) : ∀ x ∈ applyCredit a t l, 0 ≤ x.balance := by
  intro x hx
  rw [applyCredit, List.mem_map] at hx
  obtain ⟨y, hy, rfl⟩ := hx
  by_cases hm : (y.id == t) = true
  · rw [if_pos hm]
    have hy0 := h y hy
    dsimp only
    omega
  · rw [if_neg hm]
    exact h y hy

/-- One transfer call with a nonnegative amount preserves nonnegativity of all
balances. -/
theorem transferHandler_nonneg (c : Bool) (req : Request) (s : DB)
    (ha : 0 ≤ req.amount) (hinit : ∀ acc ∈ s.accounts, 0 ≤ acc.balance) :
    ∀ acc ∈ (transferHandler c req s).2.accounts, 0 ≤ acc.balance := by
  rcases transferHandler_accounts c req s with h | h
  · rw [h]
    exact hinit
  · rw [h]
    exact applyCredit_nonneg _ _ ha (applyDebit_nonneg _ _ hinit)

/-- C4 counterexample: from a state where every balance is ≥ 0, a single
transfer call with a negative amount (which the code accepts) reaches a state
with a negative balance: the claim as stated — over calls with *any* inputs —
is false. -/
theorem C4_counterexample :
    (∀ acc ∈ (⟨[⟨1, 0⟩, ⟨2, 0⟩], []⟩ : DB).accounts, 0 ≤ acc.balance) ∧
      ¬ (∀ acc ∈ (runCalls false [⟨1, 2, -100, "k", false⟩]
            ⟨[⟨1, 0⟩, ⟨2, 0⟩], []⟩).accounts, 0 ≤ acc.balance) := by
  decide

/-- C4 (amended): in every state reachable from a state with all balances ≥ 0
via transfer calls whose amounts are nonnegative, every balance stays ≥ 0. -/
theorem C4_no_negative_balances (c : Bool) (reqs : List Request) (s : DB)
    (hamt : ∀ r ∈ reqs, 0 ≤ r.amount)
    (hinit : ∀ acc ∈ s.accounts, 0 ≤ acc.balance) :
    ∀ acc ∈ (runCalls c reqs s).accounts, 0 ≤ acc.balance := by
  induction reqs generalizing s with
  | nil => exact hinit
  | cons r rs ih =>
    have hr : 0 ≤ r.amount := hamt r (List.mem_cons_self r rs)
    have htail : ∀ x ∈ rs, 0 ≤ x.amount := fun x hx => hamt x (List.mem_cons_of_mem r hx)
    exact ih (transferHandler c r s).2 htail (transferHandler_nonneg c r s hr hinit)

theorem C4_witness :
    ((∀ r ∈ [(⟨1, 2, 10, "k", false⟩ : Request), ⟨2, 1, 3, "k2", false⟩], 0 ≤ r.amount) ∧
      (∀ acc ∈ (⟨[⟨1, 100⟩, ⟨2, 5⟩], []⟩ : DB).accounts, 0 ≤ acc.balance)) ∧
    (∀ acc ∈ (runCalls false [⟨1, 2, 10, "k", false⟩, ⟨2, 1, 3, "k2", false⟩]
        ⟨[⟨1, 100⟩, ⟨2, 5⟩], []⟩).accounts, 0 ≤ acc.balance) :=
  ⟨⟨by decide, by decide⟩,
    C4_no_negative_balances false [⟨1, 2, 10, "k", false⟩, ⟨2, 1, 3, "k2", false⟩]
      ⟨[⟨1, 100⟩, ⟨2, 5⟩], []⟩ (by decide) (by decide)⟩

/-- C5: a fresh-key transfer whose amount exceeds the (unique, existing)
sender's balance returns 422 Insufficient Funds and leaves the database —
both tables — exactly as before. -/
theorem C5_insufficient_funds_non_mutating (c : Bool) (req : Request) (s : DB) (bX : Int)
    (hnd : (s.accounts.map Account.id).Nodup)
    (hkey : ¬ req.idempotencyKey = "")
    (hfresh : recordedKey req.idempotencyKey s = false)
    (hX : lookupBalance req.from_id s = some bX)
    (hlt : bX < req.amount) :
    transferHandler c req s = (some ⟨422, "Insufficient Funds", none⟩, s) := by
  rcases hfx : s.accounts.find? (fun x => x.id == req.from_id) with _ | accX
  · rw [lookupBalance, hfx] at hX
    cases hX
  · rw [lookupBalance, hfx] at hX
    have hbX : accX.balance = bX := by simpa using hX
    have haff : debitRowsAffected req.amount req.from_id s.accounts = 0 :=
      affected_eq_zero_of_lt hnd hfx (by rw [hbX]; exact hlt)
    rw [transferHandler_fresh c (by simp [hkey]) hfresh]
    unfold criticalSection
    rw [if_pos haff]

theorem C5_witness :
    (((⟨[⟨1, 4⟩, ⟨2, 5⟩], []⟩ : DB).accounts.map Account.id).Nodup ∧
      ¬ (⟨1, 2, 10, "k", false⟩ : Request).idempotencyKey = "" ∧
      recordedKey "k" ⟨[⟨1, 4⟩, ⟨2, 5⟩], []⟩ = false ∧
      lookupBalance 1 ⟨[⟨1, 4⟩, ⟨2, 5⟩], []⟩ = some 4 ∧
      (4 : Int) < 10) ∧
    transferHandler false ⟨1, 2, 10, "k", false⟩ ⟨[⟨1, 4⟩, ⟨2, 5⟩], []⟩ =
      (some ⟨422, "Insufficient Funds", none⟩, ⟨[⟨1, 4⟩, ⟨2, 5⟩], []⟩) :=
  ⟨⟨by decide, by decide, by decide, by decide, by decide⟩,
    C5_insufficient_funds_non_mutating false ⟨1, 2, 10, "k", false⟩ ⟨[⟨1, 4⟩, ⟨2, 5⟩], []⟩ 4
      (by decide) (by decide) (by decide) (by decide) (by decide)⟩

/-- C6 counterexample: a record insert that hits the uniqueness violation (the
key is already recorded when the critical section executes — the two-attempts
race) IS surfaced to the caller as a 500 "Failed to record transaction" error,
not as the completed transfer's result. -/
theorem C6_counterexample :
    criticalSection false ⟨1, 2, 10, "k", false⟩ ⟨[⟨1, 100⟩, ⟨2, 5⟩], [⟨1, 2, 10, "k"⟩]⟩ =
      (some ⟨500, "Failed to record transaction", none⟩,
        ⟨[⟨1, 100⟩, ⟨2, 5⟩], [⟨1, 2, 10, "k"⟩]⟩) := by
  decide

/-- C6 (amended): when the critical section runs for a key that is already
recorded (both attempts passed the probe) and the funds check passes, the
attempt is rolled back and surfaced to the caller as a 500
"Failed to record transaction" error; the caller does not receive the
completed transfer's result from this attempt. -/
theorem C6_uniqueness_violation_returns_500 (c : Bool) (req : Request) (s : DB)
    (haff : ¬ debitRowsAffected req.amount req.from_id s.accounts = 0)
    (hrec : recordedKey req.idempotencyKey s = true) :
    criticalSection c req s = (some ⟨500, "Failed to record transaction", none⟩, s) := by
  unfold criticalSection
  rw [if_neg haff, if_pos hrec]

theorem C6_witness :
    (¬ debitRowsAffected 10 1 [⟨1, 100⟩, ⟨2, 5⟩] = 0 ∧
      recordedKey "k" ⟨[⟨1, 100⟩, ⟨2, 5⟩], [⟨9, 9, 3, "k"⟩]⟩ = true) ∧
    criticalSection false ⟨1, 2, 10, "k", false⟩ ⟨[⟨1, 100⟩, ⟨2, 5⟩], [⟨9, 9, 3, "k"⟩]⟩ =
      (some ⟨500, "Failed to record transaction", none⟩,
        ⟨[⟨1, 100⟩, ⟨2, 5⟩], [⟨9, 9, 3, "k"⟩]⟩) :=
  ⟨⟨by decide, by decide⟩,
    C6_uniqueness_violation_returns_500 false ⟨1, 2, 10, "k", false⟩
      ⟨[⟨1, 100⟩, ⟨2, 5⟩], [⟨9, 9, 3, "k"⟩]⟩ (by decide) (by decide)⟩

/-- C9: a fresh-key transfer whose from_id matches no `accounts` row affects
zero rows in the conditional debit, so it returns 422 Insufficient Funds —
indistinguishable from an underfunded sender — leaving the database unchanged. -/
theorem C9_nonexistent_sender_422 (c : Bool) (req : Request) (s : DB)
    (hkey : ¬ req.idempotencyKey = "")
    (hfresh : recordedKey req.idempotencyKey s = false)
    (hfrom : lookupBalance req.from_id s = none) :
    transferHandler c req s = (some ⟨422, "Insufficient Funds", none⟩, s) := by
  have hfx : s.accounts.find? (fun x => x.id == req.from_id) = none := by
    rcases h : s.accounts.find? (fun x => x.id == req.from_id) with _ | acc
    · exact h
    · rw [lookupBalance, h] at hfrom
      cases hfrom
  have haff := affected_eq_zero_of_absent (a := req.amount) hfx
  rw [transferHandler_fresh c (by simp [hkey]) hfresh]
  unfold criticalSection
  rw [if_pos haff]

theorem C9_witness :
    (¬ (⟨7, 2, 10, "k", false⟩ : Request).idempotencyKey = "" ∧
      recordedKey "k" ⟨[⟨1, 100⟩, ⟨2, 5⟩], []⟩ = false ∧
      lookupBalance 7 ⟨[⟨1, 100⟩, ⟨2, 5⟩], []⟩ = none) ∧
    transferHandler false ⟨7, 2, 10, "k", false⟩ ⟨[⟨1, 100⟩, ⟨2, 5⟩], []⟩ =
      (some ⟨422, "Insufficient Funds", none⟩, ⟨[⟨1, 100⟩, ⟨2, 5⟩], []⟩) :=
  ⟨⟨by decide, by decide, by decide⟩,
    C9_nonexistent_sender_422 false ⟨7, 2, 10, "k", false⟩ ⟨[⟨1, 100⟩, ⟨2, 5⟩], []⟩
      (by decide) (by decide) (by decide)⟩

/-- The unconditional credit is the identity when no row has the receiver id. -/
theorem applyCredit_of_absent (a t : Int) {l : List Account}
    (h : ∀ x ∈ l, (x.id == t) = false) : applyCredit a t l = l := by
  induction l with
  | nil => rfl
  | cons x xs ih =>
    rw [applyCredit_cons, if_neg (by simp [h x (List.mem_cons_self x xs)]),
      ih fun y hy => h y (List.mem_cons_of_mem x hy)]

theorem mem_applyDebit_exists {a f : Int} {l : List Account} {x : Account}
    (hx : x ∈ applyDebit a f l) : ∃ y ∈ l, x.id = y.id := by
  rw [applyDebit, List.mem_map] at hx
  obtain ⟨y, hy, rfl⟩ := hx
  refine ⟨y, hy, ?_⟩
  by_cases hm : debitMatches a f y
  · rw [if_pos hm]
  · rw [if_neg hm]

/-- C8: a fresh-key transfer whose sender exists with sufficient balance but
whose to_id matches no `accounts` row still commits and returns 200: the
sender is debited, the record inserted, no row is credited, and the total of
all balances drops by the amount. -/
theorem C8_nonexistent_receiver_commits (req : Request) (s : DB) (bX : Int)
    (hnd : (s.accounts.map Account.id).Nodup)
    (hkey : ¬ req.idempotencyKey = "")
    (hfresh : recordedKey req.idempotencyKey s = false)
    (hX : lookupBalance req.from_id s = some bX)
    (hge : req.amount ≤ bX)
    (hto : lookupBalance req.to_id s = none) :
    (transferHandler false req s).1 = some ⟨200, "Transfer Complete", some req.amount⟩ ∧
    (transferHandler false req s).2.accounts = applyDebit req.amount req.from_id s.accounts ∧
    (transferHandler false req s).2.transactions =
      s.transactions ++ [⟨req.from_id, req.to_id, req.amount, req.idempotencyKey⟩] ∧
    lookupBalance req.from_id (transferHandler false req s).2 = some (bX - req.amount) ∧
    totalBalance (transferHandler false req s).2 = totalBalance s - req.amount := by
  rcases hfx : s.accounts.find? (fun x => x.id == req.from_id) with _ | accX
  · rw [lookupBalance, hfx] at hX
    cases hX
  · have hbX : accX.balance = bX := by
      rw [lookupBalance, hfx] at hX
      simpa using hX
    have hgeX : req.amount ≤ accX.balance := by
      rw [hbX]
      exact hge
    have haff := affected_ne_zero_of_le hfx hgeX
    have hfty : s.accounts.find? (fun x => x.id == req.to_id) = none := by
      rcases h : s.accounts.find? (fun x => x.id == req.to_id) with _ | acc
      · exact h
      · rw [lookupBalance, h] at hto
        cases hto
    have habsent : ∀ x ∈ applyDebit req.amount req.from_id s.accounts,
        (x.id == req.to_id) = false := by
      intro x hx
      obtain ⟨y, hy, hid⟩ := mem_applyDebit_exists hx
      rw [List.find?_eq_none] at hfty
      have hyt := hfty y hy
      rw [hid]
      simpa using hyt
    have hcred : applyCredit req.amount req.to_id (applyDebit req.amount req.from_id s.accounts) =
        applyDebit req.amount req.from_id s.accounts := applyCredit_of_absent _ _ habsent
    rw [transferHandler_fresh false (by simp [hkey]) hfresh,
      criticalSection_commit false req s haff hfresh rfl]
    have hacc : (commitState req s).accounts = applyDebit req.amount req.from_id s.accounts := by
      unfold commitState
      exact hcred
    refine ⟨rfl, hacc, rfl, ?_, ?_⟩
    · unfold lookupBalance
      dsimp only
      rw [hacc, find?_applyDebit_eq req.amount req.from_id hfx hgeX]
      simp [hbX]
    · unfold totalBalance
      dsimp only
      rw [hacc, sum_applyDebit]
      have haccid := List.find?_some hfx
      have hcount1 : s.accounts.countP (debitMatches req.amount req.from_id) = 1 := by
        refine countP_eq_one_of_nodup hnd hfx ?_ ?_
        · simp only [debitMatches, Bool.and_eq_true, decide_eq_true_eq]
          exact ⟨haccid, hgeX⟩
        · intro x hp
          simp only [debitMatches, Bool.and_eq_true, beq_iff_eq] at hp
          exact hp.1
      rw [hcount1]
      push_cast
      ring

theorem C8_witness :
    ((((⟨[⟨1, 100⟩], []⟩ : DB).accounts.map Account.id).Nodup ∧
      ¬ (⟨1, 2, 10, "k", false⟩ : Request).idempotencyKey = "" ∧
      recordedKey "k" ⟨[⟨1, 100⟩], []⟩ = false ∧
      lookupBalance 1 ⟨[⟨1, 100⟩], []⟩ = some 100 ∧
      (10 : Int) ≤ 100 ∧
      lookupBalance 2 ⟨[⟨1, 100⟩], []⟩ = none)) ∧
    ((transferHandler false ⟨1, 2, 10, "k", false⟩ ⟨[⟨1, 100⟩], []⟩).1 =
        some ⟨200, "Transfer Complete", some 10⟩ ∧
      (transferHandler false ⟨1, 2, 10, "k", false⟩ ⟨[⟨1, 100⟩], []⟩).2.accounts =
        applyDebit 10 1 [⟨1, 100⟩] ∧
      (transferHandler false ⟨1, 2, 10, "k", false⟩ ⟨[⟨1, 100⟩], []⟩).2.transactions =
        [] ++ [⟨1, 2, 10, "k"⟩] ∧
      lookupBalance 1 (transferHandler false ⟨1, 2, 10, "k", false⟩ ⟨[⟨1, 100⟩], []⟩).2 =
        some (100 - 10) ∧
      totalBalance (transferHandler false ⟨1, 2, 10, "k", false⟩ ⟨[⟨1, 100⟩], []⟩).2 =
        totalBalance ⟨[⟨1, 100⟩], []⟩ - 10) :=
  ⟨⟨by decide, by decide, by decide, by decide, by decide, by decide⟩,
    C8_nonexistent_receiver_commits ⟨1, 2, 10, "k", false⟩ ⟨[⟨1, 100⟩], []⟩ 100
      (by decide) (by decide) (by decide) (by decide) (by decide) (by decide)⟩

/-- C10: a fresh-key transfer between distinct existing accounts with a
nonpositive amount passes the debit guard (given a nonnegative sender
balance), commits and returns 200; a strictly negative amount strictly
increases the sender's balance and strictly decreases the receiver's. -/
theorem C10_nonpositive_amount_succeeds (req : Request) (s : DB) (bX bY : Int)
    (hkey : ¬ req.idempotencyKey = "")
    (hfresh : recordedKey req.idempotencyKey s = false)
    (hne : req.from_id ≠ req.to_id)
    (hX : lookupBalance req.from_id s = some bX)
    (hX0 : 0 ≤ bX)
    (hY : lookupBalance req.to_id s = some bY)
    (hle : req.amount ≤ 0) :
    (transferHandler false req s).1 = some ⟨200, "Transfer Complete", some req.amount⟩ ∧
    lookupBalance req.from_id (transferHandler false req s).2 = some (bX - req.amount) ∧
    lookupBalance req.to_id (transferHandler false req s).2 = some (bY + req.amount) ∧
    (req.amount < 0 → bX < bX - req.amount ∧ bY + req.amount < bY) := by
  rcases hfx : s.accounts.find? (fun x => x.id == req.from_id) with _ | accX
  · rw [lookupBalance, hfx] at hX
    cases hX
  · rcases hfy : s.accounts.find? (fun x => x.id == req.to_id) with _ | accY
    · rw [lookupBalance, hfy] at hY
      cases hY
    · have hbX : accX.balance = bX := by
        rw [lookupBalance, hfx] at hX
        simpa using hX
      have hbY : accY.balance = bY := by
        rw [lookupBalance, hfy] at hY
        simpa using hY
      have hgeX : req.amount ≤ accX.balance := by
        rw [hbX]
        omega
      have haff := affected_ne_zero_of_le hfx hgeX
      rw [transferHandler_fresh false (by simp [hkey]) hfresh,
        criticalSection_commit false req s haff hfresh rfl]
      refine ⟨rfl, ?_, ?_, fun hlt => ⟨by omega, by omega⟩⟩
      · unfold lookupBalance commitState
        dsimp only
        rw [find?_applyCredit_ne req.amount (Ne.symm hne),
          find?_applyDebit_eq req.amount req.from_id hfx hgeX]
        simp [hbX]
      · have hfy2 : (applyDebit req.amount req.from_id s.accounts).find?
            (fun x => x.id == req.to_id) = some accY := by
          rw [find?_applyDebit_ne req.amount hne]
          exact hfy
        unfold lookupBalance commitState
        dsimp only
        rw [find?_applyCredit_eq req.amount req.to_id hfy2]
        simp [hbY]

theorem C10_witness :
    ((¬ (⟨1, 2, -40, "k", false⟩ : Request).idempotencyKey = "" ∧
      recordedKey "k" ⟨[⟨1, 100⟩, ⟨2, 5⟩], []⟩ = false ∧
      (1 : Int) ≠ 2 ∧
      lookupBalance 1 ⟨[⟨1, 100⟩, ⟨2, 5⟩], []⟩ = some 100 ∧
      (0 : Int) ≤ 100 ∧
      lookupBalance 2 ⟨[⟨1, 100⟩, ⟨2, 5⟩], []⟩ = some 5 ∧
      (-40 : Int) ≤ 0)) ∧
    ((transferHandler false ⟨1, 2, -40, "k", false⟩ ⟨[⟨1, 100⟩, ⟨2, 5⟩], []⟩).1 =
        some ⟨200, "Transfer Complete", some (-40)⟩ ∧
      lookupBalance 1 (transferHandler false ⟨1, 2, -40, "k", false⟩
        ⟨[⟨1, 100⟩, ⟨2, 5⟩], []⟩).2 = some (100 - (-40)) ∧
      lookupBalance 2 (transferHandler false ⟨1, 2, -40, "k", false⟩
        ⟨[⟨1, 100⟩, ⟨2, 5⟩], []⟩).2 = some (5 + (-40)) ∧
      ((-40 : Int) < 0 → (100 : Int) < 100 - (-40) ∧ (5 : Int) + (-40) < 5)) :=
  ⟨⟨by decide, by decide, by decide, by decide, by decide, by decide, by decide⟩,
    C10_nonpositive_amount_succeeds ⟨1, 2, -40, "k", false⟩ ⟨[⟨1, 100⟩, ⟨2, 5⟩], []⟩ 100 5
      (by decide) (by decide) (by decide) (by decide) (by decide) (by decide) (by decide)⟩

/-! ### Step ordering on the `/transfer` route (C7) -/

/-- The external stores a protocol step touches, in program order. -/
inductive Event where
  | cacheProbe
  | lockAcquire
  | recordProbe
  | ledgerMutation
  | lockRelease
  | cacheStore
deriving DecidableEq, Repr

/-- Store accesses of `api.TransferHandler`, in program order: the recovery
probe of the `transactions` table, then — when no record exists — the SQL
transaction of the critical section (the ledger mutation attempt). -/
def transferHandlerEvents (req : Request) (s : DB) : List Event :=
  if req.idempotencyKey == "" then []
  else
    match findTxn req.idempotencyKey s with
    | some _ => [Event.recordProbe]
    | none => [Event.recordProbe, Event.ledgerMutation]

/-- Redis state as seen by the middleware: cached responses (keyed by
`"idempotency:" ++ key`) and held locks (`"lock:" ++ key`). -/
structure RedisState where
  cache : List (String × String)
  locks : List String
deriving DecidableEq, Repr

/-- Store accesses of `middleware.Idempotency` wrapping an inner handler whose
accesses are `inner` and whose response status is `innerStatus`: with no key
the middleware is a no-op; otherwise the cache probe comes first; on a miss,
lock acquisition (`SetNX`); when the lock is acquired, the inner handler runs,
2xx responses are stored in the cache, and the deferred lock release runs
last. -/
def idempotencyMiddlewareEvents (rs : RedisState) (key : String)
    (inner : List Event) (innerStatus : Nat) : List Event :=
  if key == "" then inner
  else if rs.cache.any (fun p => p.1 == "idempotency:" ++ key) then
    [Event.cacheProbe]
  else if rs.locks.any (fun l => l == "lock:" ++ key) then
    [Event.cacheProbe, Event.lockAcquire]
  else
    [Event.cacheProbe, Event.lockAcquire] ++ inner ++
      (if 200 ≤ innerStatus ∧ innerStatus < 300 then [Event.cacheStore] else []) ++
      [Event.lockRelease]

/-- Store accesses of the `/transfer` route as wired in `main.go`:
`api.TransferHandler` alone — the idempotency middleware is not installed
(`main.go` has only a `TODO: Idempotency Middleware` comment). -/
def transferRouteEvents (req : Request) (s : DB) : List Event :=
  transferHandlerEvents req s

/-- C7 counterexample: a fresh-key request to the transfer endpoint performs
the ledger mutation without any response-cache probe and without any lock
acquisition — the claimed step order (cache probe, then record probe, then
lock acquisition, then mutation) does not occur. -/
theorem C7_counterexample :
    Event.ledgerMutation ∈ transferRouteEvents ⟨1, 2, 10, "k", false⟩ ⟨[⟨1, 100⟩], []⟩ ∧
      Event.cacheProbe ∉ transferRouteEvents ⟨1, 2, 10, "k", false⟩ ⟨[⟨1, 100⟩], []⟩ ∧
      Event.lockAcquire ∉ transferRouteEvents ⟨1, 2, 10, "k", false⟩ ⟨[⟨1, 100⟩], []⟩ := by
  decide

/-- C7 (amended): the middleware is not installed on the `/transfer` route, so
a request with a non-empty key performs only the durable-record probe, followed
by the ledger mutation when no record exists — never a cache probe or a lock
acquisition.  In the middleware itself (defined but unused), on a cache miss
with a free lock the cache probe comes first and lock acquisition precedes the
wrapped handler — so even there the record probe would follow, not precede,
lock acquisition. -/
theorem C7_route_step_order (req : Request) (s : DB) (rs : RedisState)
    (inner : List Event) (st : Nat)
    (hk : ¬ req.idempotencyKey = "")
    (hmiss : rs.cache.any (fun p => p.1 == "idempotency:" ++ req.idempotencyKey) = false)
    (hfree : rs.locks.any (fun l => l == "lock:" ++ req.idempotencyKey) = false) :
    (transferRouteEvents req s = [Event.recordProbe] ∨
      transferRouteEvents req s = [Event.recordProbe, Event.ledgerMutation]) ∧
    Event.cacheProbe ∉ transferRouteEvents req s ∧
    Event.lockAcquire ∉ transferRouteEvents req s ∧
    idempotencyMiddlewareEvents rs req.idempotencyKey inner st =
      [Event.cacheProbe, Event.lockAcquire] ++ inner ++
        (if 200 ≤ st ∧ st < 300 then [Event.cacheStore] else []) ++ [Event.lockRelease] := by
  have hkb : ¬ (req.idempotencyKey == "") = true := by simp [hk]
  have hroute : transferRouteEvents req s = [Event.recordProbe] ∨
      transferRouteEvents req s = [Event.recordProbe, Event.ledgerMutation] := by
    unfold transferRouteEvents transferHandlerEvents
    rw [if_neg hkb]
    rcases findTxn req.idempotencyKey s with _ | t
    · right
      rfl
    · left
      rfl
  refine ⟨hroute, ?_, ?_, ?_⟩
  · rcases hroute with h | h <;> rw [h] <;> decide
  · rcases hroute with h | h <;> rw [h] <;> decide
  · unfold idempotencyMiddlewareEvents
    rw [if_neg hkb, if_neg (by simp [hmiss]), if_neg (by simp [hfree])]

theorem C7_witness :
    ((¬ (⟨1, 2, 10, "k", false⟩ : Request).idempotencyKey = "" ∧
      (⟨[], []⟩ : RedisState).cache.any (fun p => p.1 == "idempotency:" ++ "k") = false ∧
      (⟨[], []⟩ : RedisState).locks.any (fun l => l == "lock:" ++ "k") = false)) ∧
    ((transferRouteEvents ⟨1, 2, 10, "k", false⟩ ⟨[⟨1, 100⟩], []⟩ = [Event.recordProbe] ∨
        transferRouteEvents ⟨1, 2, 10, "k", false⟩ ⟨[⟨1, 100⟩], []⟩ =
          [Event.recordProbe, Event.ledgerMutation]) ∧
      Event.cacheProbe ∉ transferRouteEvents ⟨1, 2, 10, "k", false⟩ ⟨[⟨1, 100⟩], []⟩ ∧
      Event.lockAcquire ∉ transferRouteEvents ⟨1, 2, 10, "k", false⟩ ⟨[⟨1, 100⟩], []⟩ ∧
      idempotencyMiddlewareEvents ⟨[], []⟩ "k" [Event.recordProbe, Event.ledgerMutation] 200 =
        [Event.cacheProbe, Event.lockAcquire] ++ [Event.recordProbe, Event.ledgerMutation] ++
          (if 200 ≤ 200 ∧ 200 < 300 then [Event.cacheStore] else []) ++ [Event.lockRelease]) :=
  ⟨⟨by decide, by decide, by decide⟩,
    C7_route_step_order ⟨1, 2, 10, "k", false⟩ ⟨[⟨1, 100⟩], []⟩ ⟨[], []⟩
      [Event.recordProbe, Event.ledgerMutation] 200 (by decide) (by decide) (by decide)⟩

example :
    transferHandler false ⟨1, 2, 10, "k", false⟩ ⟨[⟨1, 100⟩, ⟨2, 5⟩], []⟩ =
      (some ⟨200, "Transfer Complete", some 10⟩, ⟨[⟨1, 90⟩, ⟨2, 15⟩], [⟨1, 2, 10, "k"⟩]⟩) := by
  decide

example :
    transferHandler false ⟨1, 2, 10, "k", false⟩ ⟨[⟨1, 90⟩, ⟨2, 15⟩], [⟨1, 2, 10, "k"⟩]⟩ =
      (some ⟨200, "Transfer Complete (Recovered)", some 10⟩,
        ⟨[⟨1, 90⟩, ⟨2, 15⟩], [⟨1, 2, 10, "k"⟩]⟩) := by
  decide

example :
    transferHandler false ⟨1, 2, 1000, "k2", false⟩ ⟨[⟨1, 90⟩, ⟨2, 15⟩], [⟨1, 2, 10, "k"⟩]⟩ =
      (some ⟨422, "Insufficient Funds", none⟩, ⟨[⟨1, 90⟩, ⟨2, 15⟩], [⟨1, 2, 10, "k"⟩]⟩) := by
  decide

example :
    transferHandler true ⟨1, 2, 10, "k", true⟩ ⟨[⟨1, 100⟩, ⟨2, 5⟩], []⟩ =
      (none, ⟨[⟨1, 90⟩, ⟨2, 15⟩], [⟨1, 2, 10, "k"⟩]⟩) := by
  decide
